import Mathlib

/-!
Shallow embedding of `src/app.py` (an audio-processing web endpoint).

Stage 1 (voice): optional spectral noise reduction, then an optional
chain of pedalboard effect stages, then conversion from planar float
PCM back to interleaved 16-bit PCM (`convert_numpy_to_audio`).

Stage 2 (background music): trim, loop, truncate to the voice length,
volume gain, optional fade-out, and an additive overlay onto the voice.

Modelling conventions:
* Audio segments (pydub `AudioSegment`) are lists of 16-bit samples.
  We fix the frame rate at 1000 frames per second, so one list element
  is one frame and one millisecond; pydub's millisecond-addressed
  slicing then coincides with list indexing, and `len(segment)` (which
  pydub reports in milliseconds) is the list length.
* Planar float PCM (numpy arrays of shape `(channels, samples)`) are
  lists of channels, each a list of rational samples.
* Python `float` values carried by the request are rationals; the
  string parser models Python `float(...)` on plain decimal literals.
* Fallible Python code (a `float(...)` call that can raise
  `ValueError`, the division that can raise `ZeroDivisionError`)
  returns `Except String`; the route's outer `try/except` turns an
  error into a 500 response (`Response.error`).
* The DSP internals of the external libraries (pedalboard effect
  processing, the noisereduce algorithm, pydub's per-sample gain and
  fade ramps) are abstract function parameters: the embedding fixes
  exactly the control flow and data plumbing that `app.py` itself
  contains.  pydub's `overlay` is backed by `audioop.add`, which
  saturates sums at the 16-bit bounds; that arithmetic is part of the
  mixing semantics and is modelled concretely (`audioopAdd`).
-/

namespace AudioApp

/-- Truncation toward zero, modelling Python `int(...)` on a number. -/
def truncToZero (q : ℚ) : ℤ := if 0 ≤ q then ⌊q⌋ else ⌈q⌉

/-! ### Python float parsing -/

/-- Numeric value of a decimal digit character, `none` otherwise. -/
def digitVal (c : Char) : Option ℕ :=
  if c.isDigit then some (c.toNat - 48) else none

/-- Value of a digit string, `none` when any character is not a digit. -/
def digitsVal : List Char → Option ℕ
  | [] => some 0
  | c :: cs =>
    match digitVal c, digitsVal cs with
    | some d, some n => some (d * 10 ^ cs.length + n)
    | _, _ => none

/-- Unsigned decimal literal: digits with an optional fractional part.
Models the body of Python `float(...)` for plain decimal notation
(`"5"`, `"0.5"`, `".5"`, `"5."`); anything else is a parse failure. -/
def parseDecimal (cs : List Char) : Option ℚ :=
  let intPart := cs.takeWhile (·.isDigit)
  let rest := cs.dropWhile (·.isDigit)
  match rest with
  | [] =>
    if intPart = [] then none
    else (digitsVal intPart).map (fun n => (n : ℚ))
  | '.' :: frac =>
    if intPart = [] ∧ frac = [] then none
    else
      match digitsVal intPart, digitsVal frac with
      | some n, some m => some ((n : ℚ) + (m : ℚ) / 10 ^ frac.length)
      | _, _ => none
  | _ => none

/-- Strip leading and trailing whitespace from a character list. -/
def stripChars (cs : List Char) : List Char :=
  ((cs.dropWhile (·.isWhitespace)).reverse.dropWhile (·.isWhitespace)).reverse

/-- Python `float(s)` for a string `s`: optional sign, decimal literal,
surrounding whitespace stripped.  `none` models a raised `ValueError`. -/
def parseFloat (s : String) : Option ℚ :=
  match stripChars s.toList with
  | '-' :: rest => (parseDecimal rest).map (fun q => -q)
  | '+' :: rest => parseDecimal rest
  | cs => parseDecimal cs

/-- `float(request.form.get(key, d))`: an absent key yields the numeric
default `d` (no parsing), a present value is parsed and a non-numeric
value raises (`Except.error`). -/
def formFloat (v : Option String) (d : ℚ) : Except String ℚ :=
  match v with
  | none => .ok d
  | some s =>
    match parseFloat s with
    | some q => .ok q
    | none => .error "could not convert string to float"

/-! ### The request form -/

/-- The form fields `process_audio` reads; `none` is an absent key. -/
structure Form where
  enable_nr : Option String := none
  val_nr : Option String := none
  enable_vintage : Option String := none
  val_vintage : Option String := none
  enable_mic : Option String := none
  enable_podcast : Option String := none
  val_podcast : Option String := none
  bg_start : Option String := none
  bg_end : Option String := none
  bg_vol : Option String := none
  bg_fade_start : Option String := none
  bg_fade_len : Option String := none
  deriving DecidableEq

/-! ### Effect chain (pedalboard rack, lines 99-128) -/

/-- One pedalboard module with the numeric parameters `app.py` passes. -/
inductive EffectStage where
  | highpass (cutoff_frequency_hz : ℚ)
  | lowpass (cutoff_frequency_hz : ℚ)
  | highshelf (cutoff_frequency_hz gain_db : ℚ)
  | lowshelf (cutoff_frequency_hz gain_db : ℚ)
  | distortion (drive_db : ℚ)
  | noisegate (threshold_db ratio release_ms : ℚ)
  | compressor (threshold_db ratio attack_ms release_ms : ℚ)
  | limiter (threshold_db : ℚ)
  deriving DecidableEq

/-- Modules appended when `enable_vintage` is `'true'` (lines 102-107),
with `v_val` the parsed `val_vintage` divided by 100. -/
def vintageModules (v_val : ℚ) : List EffectStage :=
  [.highpass (300 + 200 * v_val),
   .lowpass (3500 - 2000 * v_val),
   .distortion (20 * v_val)]

/-- Modules appended when `enable_mic` is `'true'` (lines 110-113). -/
def micModules : List EffectStage :=
  [.highpass 80, .highshelf 4000 3, .lowshelf 200 2]

/-- Modules appended when `enable_podcast` is `'true'` (lines 116-121),
with `p_val` the parsed `val_podcast` divided by 100. -/
def podcastModules (p_val : ℚ) : List EffectStage :=
  [.noisegate (-40) 4 200,
   .compressor (-16) (2 + 4 * p_val) 1 100,
   .limiter (-1)]

/-- Lines 99-121: build `board_modules` in the fixed order vintage,
mic, podcast.  A non-numeric `val_vintage` or `val_podcast` raises. -/
def buildBoard (f : Form) : Except String (List EffectStage) :=
  match (if f.enable_vintage = some "true"
         then (formFloat f.val_vintage 0).map (fun v => vintageModules (v / 100))
         else .ok []) with
  | .error e => .error e
  | .ok vint =>
    let mic := if f.enable_mic = some "true" then micModules else []
    match (if f.enable_podcast = some "true"
           then (formFloat f.val_podcast 0).map (fun p => podcastModules (p / 100))
           else .ok []) with
    | .error e => .error e
    | .ok pod => .ok (vint ++ mic ++ pod)

/-- Planar float PCM: one list of samples per channel. -/
abbrev FloatPCM := List (List ℚ)

/-- Lines 124-128: run the board only when it is non-empty; an empty
rack passes the buffer through untouched.  `apply` is the external
pedalboard DSP. -/
def applyBoardStage (apply : List EffectStage → FloatPCM → FloatPCM)
    (board : List EffectStage) (data : FloatPCM) : FloatPCM :=
  if board = [] then data else apply board data

/-- Lines 88-96: optional noise reduction.  `reduce` is the external
`noisereduce` algorithm, called only when `enable_nr` is `'true'` and
the parsed intensity (value / 100) is positive; a non-numeric `val_nr`
raises. -/
def noiseStage (reduce : ℚ → FloatPCM → FloatPCM) (f : Form)
    (data : FloatPCM) : Except String FloatPCM :=
  if f.enable_nr = some "true" then
    match formFloat f.val_nr 0 with
    | .error e => .error e
    | .ok v =>
      let intensity := v / 100
      if 0 < intensity then .ok (reduce intensity data) else .ok data
  else .ok data

/-! ### convert_numpy_to_audio (lines 39-59) -/

/-- `np.clip(x, -1.0, 1.0)` on one sample. -/
def clip1 (x : ℚ) : ℚ := max (-1) (min 1 x)

/-- One sample of `(np.clip(data, -1, 1) * 32767).astype(np.int16)`:
clip, scale by 32767, truncate toward zero (the C float→int cast). -/
def encodeSample (x : ℚ) : ℤ := truncToZero (clip1 x * 32767)

/-- Encode one channel of float samples to 16-bit samples. -/
def encodeChannel (ch : List ℚ) : List ℤ := ch.map encodeSample

/-- `pcm_data.T.flatten()` for a `(2, n)` array: frame-major,
channel-minor interleaving of the two channel rows. -/
def interleave2 (l r : List ℤ) : List ℤ :=
  (l.zip r).flatMap (fun p => [p.1, p.2])

/-- Lines 39-59, `convert_numpy_to_audio`: clip to [-1, 1], scale by
32767, truncate to 16-bit integers; a two-channel array is transposed
and flattened (interleaved), anything else is flattened as is. -/
def convert_numpy_to_audio (data : FloatPCM) : List ℤ :=
  match data.map encodeChannel with
  | [l, r] => interleave2 l r
  | pcm => pcm.flatten

/-! ### Stage 1 -/

/-- Lines 82-131: noise reduction, pedalboard rack, and conversion of
the processed float PCM back to a 16-bit segment for mixing. -/
def stage1 (reduce : ℚ → FloatPCM → FloatPCM)
    (apply : List EffectStage → FloatPCM → FloatPCM)
    (f : Form) (data : FloatPCM) : Except String (List ℤ) :=
  match noiseStage reduce f data with
  | .error e => .error e
  | .ok d1 =>
    match buildBoard f with
    | .error e => .error e
    | .ok board => .ok (convert_numpy_to_audio (applyBoardStage apply board d1))

/-! ### pydub segment slicing -/

/-- pydub `AudioSegment._parse_position` at 1000 frames/s: a negative
millisecond position is taken from the segment's end, then the
position is truncated to a whole frame. -/
def parsePosition (len : ℕ) (val : ℚ) : ℤ :=
  truncToZero (if val < 0 then (len : ℚ) - |val| else val)

/-- Python sequence slicing index semantics on a length-`len` buffer:
a negative index counts from the end (floored at 0), a nonnegative
index is capped at `len`. -/
def pySliceIndex (len : ℕ) (i : ℤ) : ℕ :=
  if i < 0 then (len + i).toNat else min i.toNat len

/-- pydub `segment[startMs:endMs]` at 1000 frames/s (`__getitem__` with
a slice): both bounds are first capped at `len(self)`, converted to
frame positions, and the underlying data sliced. -/
def pydubSlice (seg : List ℤ) (startMs endMs : ℚ) : List ℤ :=
  let len := seg.length
  let s := min startMs (len : ℚ)
  let e := min endMs (len : ℚ)
  let a := pySliceIndex len (parsePosition len s)
  let b := pySliceIndex len (parsePosition len e)
  (seg.take b).drop a

/-! ### Stage 2: background music mixing (lines 137-202) -/

/-- Lines 148-153: parse `bg_start`/`bg_end`; if either parse raises,
both fall back to 0. -/
def trimParams (f : Form) : ℚ × ℚ :=
  match formFloat f.bg_start 0, formFloat f.bg_end 0 with
  | .ok s, .ok e => (s, e)
  | _, _ => (0, 0)

/-- Lines 156-159: cut the selection.  With `end_sec > 0` and
`end_sec > start_sec` the window `[start*1000, end*1000)` is taken,
otherwise the open-ended slice `[start*1000, len)`. -/
def trimStage (f : Form) (music : List ℤ) : List ℤ :=
  let p := trimParams f
  if 0 < p.2 ∧ p.1 < p.2 then
    pydubSlice music (p.1 * 1000) (p.2 * 1000)
  else
    pydubSlice music (p.1 * 1000) ((music.length : ℚ))

/-- Lines 162-164: loop the track when it is shorter than the voice.
`int(len(voice)/len(music))` raises `ZeroDivisionError` on an empty
track; otherwise the track is repeated `floor(voice/music) + 1` times
end-to-end. -/
def loopStep (voiceLen : ℕ) (seg : List ℤ) : Except String (List ℤ) :=
  if seg.length < voiceLen then
    if seg.length = 0 then .error "division by zero"
    else .ok (List.flatten (List.replicate (voiceLen / seg.length + 1) seg))
  else .ok seg

/-- The decibel gain the volume stage selects: either a flat literal
number of dB (the `music_seg - 100` branch) or the deferred
`20·log10(percent/100)` computation. -/
inductive GainExpr where
  | flatDb (db : ℚ)
  | logGain (percent : ℚ)
  deriving DecidableEq

/-- Lines 171-175: `bg_vol_percent <= 0` applies a flat −100 dB without
touching the logarithm; a positive percent selects the logarithmic
gain `20·log10(percent/100)`. -/
def volumeGain (percent : ℚ) : GainExpr :=
  if percent ≤ 0 then .flatDb (-100) else .logGain percent

/-- Real value in dB of a selected gain. -/
noncomputable def GainExpr.toDb : GainExpr → ℝ
  | .flatDb d => (d : ℝ)
  | .logGain p => 20 * Real.logb 10 ((p : ℝ) / 100)

/-- The external per-sample / whole-segment pydub operations stage 2
delegates to: `gainApply` is one sample of `apply_gain` (pydub runs
`audioop.mul`, the same scalar function on every sample), `fadeOut` is
`fade_out` with its millisecond duration. -/
structure MixOps where
  gainApply : GainExpr → ℤ → ℤ
  fadeOut : ℤ → List ℤ → List ℤ

/-- Lines 170-175: pydub gain application maps one fixed per-sample
function over the segment. -/
def volumeStage (ops : MixOps) (vol : ℚ) (seg : List ℤ) : List ℤ :=
  seg.map (ops.gainApply (volumeGain vol))

/-- Lines 178-185: parse `bg_fade_start`/`bg_fade_len`; if either parse
raises, they fall back to 0 and 3. -/
def fadeParams (f : Form) : ℚ × ℚ :=
  match formFloat f.bg_fade_start 0, formFloat f.bg_fade_len 3 with
  | .ok fs, .ok fl => (fs, fl)
  | _, _ => (0, 3)

/-- Lines 188-199: when a positive fade start is given, cut the track
at `int(fade_start_ms + fade_len_ms)` if that point is strictly before
its end, then fade out over `int(fade_len_ms)`; otherwise fade the
existing clip without shortening it. -/
def fadeStage (ops : MixOps) (f : Form) (seg : List ℤ) : List ℤ :=
  let p := fadeParams f
  if 0 < p.1 then
    let fadeStartMs := p.1 * 1000
    let fadeLenMs := p.2 * 1000
    let totalMs := fadeStartMs + fadeLenMs
    if totalMs < (seg.length : ℚ) then
      ops.fadeOut (truncToZero fadeLenMs)
        (pydubSlice seg 0 ((truncToZero totalMs : ℤ) : ℚ))
    else
      ops.fadeOut (truncToZero fadeLenMs) seg
  else seg

/-- `audioop.add` on one 16-bit sample pair: the sum saturated at the
two's-complement bounds −32768 and 32767. -/
def audioopAdd (a b : ℤ) : ℤ := max (-32768) (min 32767 (a + b))

/-- pydub `seg1.overlay(seg2, position=0)`: sample-wise saturating
addition over the overlap, the rest of `seg1` unchanged; the output
always has `seg1`'s length. -/
def overlay (seg1 seg2 : List ℤ) : List ℤ :=
  List.zipWith audioopAdd seg1 seg2 ++ seg1.drop seg2.length

/-- Lines 137-202, stage 2: trim, loop, truncate to the voice length,
volume, fade, overlay.  An uncaught `float` or division error escapes
as `Except.error`. -/
def stage2 (ops : MixOps) (f : Form) (voice music : List ℤ) :
    Except String (List ℤ) :=
  let seg1 := trimStage f music
  match loopStep voice.length seg1 with
  | .error e => .error e
  | .ok seg2 =>
    let seg3 := pydubSlice seg2 0 ((voice.length : ℚ))
    match formFloat f.bg_vol 20 with
    | .error e => .error e
    | .ok vol =>
      let seg4 := volumeStage ops vol seg3
      let seg5 := fadeStage ops f seg4
      .ok (overlay voice seg5)

/-- The route's outcome: a served file (200) or the outer
`except Exception` handler's 500 error page. -/
inductive Response where
  | file (samples : List ℤ)
  | error (msg : String)
  deriving DecidableEq

/-- Lines 76-222, `process_audio`: stage 1 on the voice, stage 2 when a
background file was supplied, with every uncaught exception converted
to an error response by the outer handler. -/
def process_audio (reduce : ℚ → FloatPCM → FloatPCM)
    (apply : List EffectStage → FloatPCM → FloatPCM)
    (ops : MixOps) (f : Form) (data : FloatPCM)
    (bg : Option (List ℤ)) : Response :=
  match stage1 reduce apply f data with
  | .error e => .error e
  | .ok voiceSeg =>
    match bg with
    | none => .file voiceSeg
    | some music =>
      match stage2 ops f voiceSeg music with
      | .error e => .error e
      | .ok out => .file out

/-- A trivial instance of the external DSP hooks: identity noise
reduction. -/
def reduceId : ℚ → FloatPCM → FloatPCM := fun _ d => d

/-- A trivial instance of the external DSP hooks: identity effect
application. -/
def applyId : List EffectStage → FloatPCM → FloatPCM := fun _ d => d

/-- pydub operations for runs whose volume stage is 0 dB (factor 1,
`audioop.mul` is then the identity) and whose fade stage is skipped:
both hooks are the identity. -/
def idOps : MixOps := ⟨fun _ x => x, fun _ s => s⟩

/-! ### Helper lemmas -/

instance {ε α : Type} [DecidableEq ε] [DecidableEq α] : DecidableEq (Except ε α) :=
  fun a b =>
    match a, b with
    | .ok x, .ok y =>
      if h : x = y then .isTrue (by rw [h]) else .isFalse (by simp [h])
    | .error x, .error y =>
      if h : x = y then .isTrue (by rw [h]) else .isFalse (by simp [h])
    | .ok _, .error _ => .isFalse (by simp)
    | .error _, .ok _ => .isFalse (by simp)

theorem truncToZero_of_nonneg {q : ℚ} (h : 0 ≤ q) : truncToZero q = ⌊q⌋ :=
  if_pos h

theorem truncToZero_natCast (n : ℕ) : truncToZero ((n : ℚ)) = (n : ℤ) := by
  rw [truncToZero_of_nonneg (by positivity), Int.floor_natCast]

theorem floor_min_natCast {q : ℚ} (n : ℕ) (h : 0 ≤ q) :
    (⌊min q ((n : ℚ))⌋).toNat = min (⌊q⌋).toNat n := by
  have h0 : (0 : ℤ) ≤ ⌊q⌋ := Int.floor_nonneg.mpr h
  rcases le_total q ((n : ℚ)) with hle | hle
  · have h1 : ⌊q⌋ ≤ (n : ℤ) := by
      have h2 := Int.floor_le_floor hle
      rwa [Int.floor_natCast] at h2
    rw [min_eq_left hle]
    omega
  · have h1 : (n : ℤ) ≤ ⌊q⌋ := by
      have h2 := Int.floor_le_floor hle
      rwa [Int.floor_natCast] at h2
    rw [min_eq_right hle, Int.floor_natCast]
    omega

theorem take_min_length {α : Type} (l : List α) (n : ℕ) :
    l.take (min n l.length) = l.take n := by
  rcases le_total n l.length with h | h
  · rw [min_eq_left h]
  · rw [min_eq_right h, List.take_length, List.take_of_length_le h]

theorem drop_min_of_le {α : Type} (l : List α) (n m : ℕ) (hm : l.length ≤ m) :
    l.drop (min n m) = l.drop n := by
  rcases le_total n m with h | h
  · rw [min_eq_left h]
  · rw [min_eq_right h, List.drop_of_length_le hm, List.drop_of_length_le (hm.trans h)]

theorem pydubSlice_nonneg (seg : List ℤ) {a b : ℚ} (ha : 0 ≤ a) (hb : 0 ≤ b) :
    pydubSlice seg a b = (seg.take (⌊b⌋).toNat).drop (⌊a⌋).toNat := by
  have hma : 0 ≤ min a ((seg.length : ℚ)) := le_min ha (by positivity)
  have hmb : 0 ≤ min b ((seg.length : ℚ)) := le_min hb (by positivity)
  have hfa : (0 : ℤ) ≤ ⌊min a ((seg.length : ℚ))⌋ := Int.floor_nonneg.mpr hma
  have hfb : (0 : ℤ) ≤ ⌊min b ((seg.length : ℚ))⌋ := Int.floor_nonneg.mpr hmb
  simp only [pydubSlice, parsePosition, pySliceIndex]
  rw [if_neg (not_lt.mpr hma), if_neg (not_lt.mpr hmb),
      truncToZero_of_nonneg hma, truncToZero_of_nonneg hmb,
      if_neg (not_lt.mpr hfa), if_neg (not_lt.mpr hfb),
      floor_min_natCast seg.length ha, floor_min_natCast seg.length hb]
  rw [show (⌊b⌋).toNat ⊓ seg.length ⊓ seg.length = (⌊b⌋).toNat ⊓ seg.length by omega,
      show (⌊a⌋).toNat ⊓ seg.length ⊓ seg.length = (⌊a⌋).toNat ⊓ seg.length by omega,
      take_min_length]
  exact drop_min_of_le _ _ _ (List.length_take_le' _ _)

theorem pydubSlice_zero_left (seg : List ℤ) {b : ℚ} (hb : 0 ≤ b) :
    pydubSlice seg 0 b = seg.take (⌊b⌋).toNat := by
  rw [pydubSlice_nonneg seg le_rfl hb]
  simp

theorem pydubSlice_take (seg : List ℤ) (n : ℕ) :
    pydubSlice seg 0 ((n : ℚ)) = seg.take n := by
  rw [pydubSlice_zero_left seg (by positivity), Int.floor_natCast]
  simp

theorem pydubSlice_full (seg : List ℤ) :
    pydubSlice seg 0 ((seg.length : ℚ)) = seg := by
  rw [pydubSlice_take]
  exact List.take_length seg

theorem pydubSlice_drop (seg : List ℤ) {a : ℚ} (ha : 0 ≤ a) :
    pydubSlice seg a ((seg.length : ℚ)) = seg.drop (⌊a⌋).toNat := by
  rw [pydubSlice_nonneg seg ha (by positivity), Int.floor_natCast]
  simp

theorem length_flatten_replicate {α : Type} (n : ℕ) (l : List α) :
    (List.flatten (List.replicate n l)).length = n * l.length := by
  induction n with
  | zero => simp
  | succ k ih =>
    rw [List.replicate_succ, List.flatten_cons, List.length_append, ih]
    ring

theorem take_flatten_replicate {α : Type} (l : List α) (k : ℕ) :
    ∀ n : ℕ, k ≤ n →
      (List.flatten (List.replicate n l)).take (k * l.length)
        = List.flatten (List.replicate k l) := by
  induction k with
  | zero =>
    intro n _
    simp
  | succ j ih =>
    intro n hn
    obtain ⟨m, rfl⟩ : ∃ m, n = m + 1 := ⟨n - 1, by omega⟩
    rw [List.replicate_succ, List.replicate_succ, List.flatten_cons, List.flatten_cons,
        show (j + 1) * l.length = l.length + j * l.length by ring,
        List.take_append, ih m (by omega)]

theorem three_mul_log_ten :
    3 * Real.log 10 = 10 * Real.log 2 - Real.log (128 / 125) := by
  have h2 : Real.log 1024 = Real.log 1000 + Real.log (128 / 125) := by
    rw [show (1024 : ℝ) = 1000 * (128 / 125) by norm_num,
        Real.log_mul (by norm_num) (by norm_num)]
  have h3 : Real.log 1024 = 10 * Real.log 2 := by
    rw [show (1024 : ℝ) = 2 ^ 10 by norm_num, Real.log_pow]
    norm_num
  have h4 : Real.log 1000 = 3 * Real.log 10 := by
    rw [show (1000 : ℝ) = 10 ^ 3 by norm_num, Real.log_pow]
    norm_num
  linarith

theorem log_128_125_bounds :
    (3 : ℝ) / 128 ≤ Real.log (128 / 125) ∧ Real.log (128 / 125) ≤ 3 / 125 := by
  constructor
  · have h := Real.one_sub_inv_le_log_of_pos (x := (128 / 125 : ℝ)) (by norm_num)
    have h2 : (1 : ℝ) - ((128 : ℝ) / 125)⁻¹ = 3 / 128 := by norm_num
    linarith
  · have h := Real.log_le_sub_one_of_pos (x := (128 / 125 : ℝ)) (by norm_num)
    linarith

theorem log_ten_bounds :
    (6907471803 : ℝ) / 3000000000 < Real.log 10 ∧
      Real.log 10 < (6908034308 : ℝ) / 3000000000 := by
  have h1 := three_mul_log_ten
  have h2 := log_128_125_bounds
  have h3 := Real.log_two_gt_d9
  have h4 := Real.log_two_lt_d9
  constructor <;> nlinarith [h2.1, h2.2]

theorem interleave2_getElem (l : List ℤ) :
    ∀ (r : List ℤ) (i : ℕ), i < l.length → i < r.length →
      (interleave2 l r)[2 * i]? = l[i]? ∧ (interleave2 l r)[2 * i + 1]? = r[i]? := by
  induction l with
  | nil =>
    intro r i h1 _
    exact absurd h1 (by simp)
  | cons x l ih =>
    intro r i h1 h2
    match r with
    | [] => exact absurd h2 (by simp)
    | y :: r2 =>
      match i with
      | 0 => constructor <;> simp [interleave2]
      | j + 1 =>
        have hj : 2 * (j + 1) = 2 * j + 1 + 1 := by ring
        have hstep : interleave2 (x :: l) (y :: r2) = x :: y :: interleave2 l r2 := by
          simp [interleave2]
        have hrec := ih r2 j (by simpa using h1) (by simpa using h2)
        refine ⟨?_, ?_⟩
        · rw [hstep, hj, List.getElem?_cons_succ, List.getElem?_cons_succ,
              hrec.1, List.getElem?_cons_succ]
        · rw [hstep, hj, List.getElem?_cons_succ, List.getElem?_cons_succ,
              hrec.2, List.getElem?_cons_succ]

/-! ### Claim theorems -/

/-- C2: for every voice buffer, when no effect preset is enabled and
noise reduction is off, the built effect chain is empty, the empty
chain passes the buffer through bit-for-bit unchanged, and stage 1
returns exactly the encode of the decoded buffer — the declared
decode→encode format round-trip is the only transformation. -/
theorem C2_empty_chain_identity
    (reduce : ℚ → FloatPCM → FloatPCM)
    (apply : List EffectStage → FloatPCM → FloatPCM)
    (f : Form) (data : FloatPCM)
    (h1 : f.enable_nr ≠ some "true") (h2 : f.enable_vintage ≠ some "true")
    (h3 : f.enable_mic ≠ some "true") (h4 : f.enable_podcast ≠ some "true") :
    buildBoard f = .ok [] ∧
    applyBoardStage apply [] data = data ∧
    stage1 reduce apply f data = .ok (convert_numpy_to_audio data) := by
  have hb : buildBoard f = .ok [] := by
    simp [buildBoard, h2, h3, h4]
  refine ⟨hb, rfl, ?_⟩
  simp [stage1, noiseStage, h1, hb, applyBoardStage]

/-- Witness for C2 at a concrete all-off request and buffer. -/
theorem C2_empty_chain_identity_witness :
    buildBoard {} = .ok [] ∧
    applyBoardStage applyId [] [[1/2, -1/4]] = [[1/2, -1/4]] ∧
    stage1 reduceId applyId {} [[1/2, -1/4]]
      = .ok (convert_numpy_to_audio [[1/2, -1/4]]) :=
  C2_empty_chain_identity reduceId applyId {} [[1/2, -1/4]]
    (by decide) (by decide) (by decide) (by decide)

/-- C7: for every combination of enabled presets, the chain is the
concatenation, in the fixed order vintage → mic-sim → podcast, of the
enabled presets' stages with exactly the documented parameters, where
`v` and `p` are the corresponding parsed intensity values divided
by 100. -/
theorem C7_chain_order (f : Form) (v p : ℚ)
    (hv : f.enable_vintage = some "true" → formFloat f.val_vintage 0 = .ok v)
    (hp : f.enable_podcast = some "true" → formFloat f.val_podcast 0 = .ok p) :
    buildBoard f = .ok
      ((if f.enable_vintage = some "true" then
          [.highpass (300 + 200 * (v / 100)),
           .lowpass (3500 - 2000 * (v / 100)),
           .distortion (20 * (v / 100))] else []) ++
       (if f.enable_mic = some "true" then
          [.highpass 80, .highshelf 4000 3, .lowshelf 200 2] else []) ++
       (if f.enable_podcast = some "true" then
          [.noisegate (-40) 4 200,
           .compressor (-16) (2 + 4 * (p / 100)) 1 100,
           .limiter (-1)] else [])) := by
  rcases Decidable.em (f.enable_vintage = some "true") with h1 | h1 <;>
    rcases Decidable.em (f.enable_podcast = some "true") with h3 | h3 <;>
    simp [buildBoard, h1, h3, hv, hp, vintageModules, micModules, podcastModules,
      Except.map]

/-- Witness for C7: all three presets enabled with intensities 50
and 100. -/
theorem C7_chain_order_witness :
    buildBoard { enable_vintage := some "true", val_vintage := some "50",
                 enable_mic := some "true",
                 enable_podcast := some "true", val_podcast := some "100" }
      = .ok [.highpass 400, .lowpass 2500, .distortion 10,
             .highpass 80, .highshelf 4000 3, .lowshelf 200 2,
             .noisegate (-40) 4 200, .compressor (-16) 6 1 100,
             .limiter (-1)] := by
  have h := C7_chain_order
    { enable_vintage := some "true", val_vintage := some "50",
      enable_mic := some "true",
      enable_podcast := some "true", val_podcast := some "100" }
    50 100 (fun _ => by decide) (fun _ => by decide)
  norm_num at h
  exact h

/-- C3: for every voice buffer and every non-empty trimmed track
strictly shorter than it, the loop step repeats the track
`floor(voice/track) + 1` times end-to-end; the mixer's following
truncation (a pydub slice to the voice length) yields exactly the
voice length, and every whole-repetition prefix of the truncated
result is the original track repeated, unreversed and uncrossfaded. -/
theorem C3_loop_coverage (voiceLen : ℕ) (seg : List ℤ)
    (hne : seg ≠ []) (hlt : seg.length < voiceLen) :
    loopStep voiceLen seg
      = .ok (List.flatten (List.replicate (voiceLen / seg.length + 1) seg)) ∧
    pydubSlice (List.flatten (List.replicate (voiceLen / seg.length + 1) seg)) 0
        ((voiceLen : ℚ))
      = (List.flatten (List.replicate (voiceLen / seg.length + 1) seg)).take voiceLen ∧
    ((List.flatten (List.replicate (voiceLen / seg.length + 1) seg)).take
        voiceLen).length = voiceLen ∧
    ∀ k : ℕ, k * seg.length ≤ voiceLen →
      ((List.flatten (List.replicate (voiceLen / seg.length + 1) seg)).take
          voiceLen).take (k * seg.length)
        = List.flatten (List.replicate k seg) := by
  have hm : 0 < seg.length := List.length_pos.mpr hne
  have hcov : voiceLen < (voiceLen / seg.length + 1) * seg.length := by
    have h := Nat.lt_div_mul_add (a := voiceLen) hm
    calc voiceLen < voiceLen / seg.length * seg.length + seg.length := h
      _ = (voiceLen / seg.length + 1) * seg.length := by ring
  refine ⟨?_, pydubSlice_take _ _, ?_, ?_⟩
  · simp [loopStep, hlt, Nat.pos_iff_ne_zero.mp hm]
  · rw [List.length_take, length_flatten_replicate]
    omega
  · intro k hk
    rw [List.take_take, min_eq_left hk]
    have hkle : k ≤ voiceLen / seg.length + 1 := by
      by_contra hgt
      push_neg at hgt
      have : (voiceLen / seg.length + 1) * seg.length ≤ k * seg.length :=
        Nat.mul_le_mul_right _ (by omega)
      omega
    exact take_flatten_replicate seg k _ hkle

/-- Witness for C3: a 3-sample track under a 10-sample voice gives 4
repetitions, a truncated length of exactly 10, and the 2-repetition
prefix intact. -/
theorem C3_loop_coverage_witness :
    loopStep 10 ([1, 2, 3] : List ℤ)
      = .ok [1, 2, 3, 1, 2, 3, 1, 2, 3, 1, 2, 3] ∧
    ((List.flatten (List.replicate (10 / ([1, 2, 3] : List ℤ).length + 1)
        ([1, 2, 3] : List ℤ))).take 10).length = 10 ∧
    ((List.flatten (List.replicate (10 / ([1, 2, 3] : List ℤ).length + 1)
        ([1, 2, 3] : List ℤ))).take 10).take (2 * ([1, 2, 3] : List ℤ).length)
      = List.flatten (List.replicate 2 ([1, 2, 3] : List ℤ)) := by
  have h := C3_loop_coverage 10 [1, 2, 3] (by decide) (by decide)
  exact ⟨by simpa using h.1, h.2.2.1, h.2.2.2 2 (by decide)⟩

/-- C4: with a positive fade start, the fade stage computes
`fade_end_ms = fade_start_s·1000 + fade_len_s·1000`; when that point is
strictly before the current track's end the track is truncated there
and the fade-out is applied over the final `fade_len_s` seconds, and
otherwise the fade-out is applied over the track's last `fade_len_s`
seconds without further shortening it; non-numeric fade parameters
fall back to fade start 0 (disabled) and fade length 3 seconds. -/
theorem C4_fade_logic (ops : MixOps) (f : Form) (seg : List ℤ) (fs fl : ℚ)
    (hp : fadeParams f = (fs, fl)) (hfs : 0 < fs) (hfl : 0 ≤ fl) :
    (fs * 1000 + fl * 1000 < ((seg.length : ℚ)) →
      fadeStage ops f seg
        = ops.fadeOut (truncToZero (fl * 1000))
            (seg.take ((⌊fs * 1000 + fl * 1000⌋).toNat))) ∧
    (¬ fs * 1000 + fl * 1000 < ((seg.length : ℚ)) →
      fadeStage ops f seg = ops.fadeOut (truncToZero (fl * 1000)) seg) ∧
    (∀ f2 : Form,
      (formFloat f2.bg_fade_start 0).toOption = none ∨
        (formFloat f2.bg_fade_len 3).toOption = none →
      fadeParams f2 = (0, 3) ∧ fadeStage ops f2 seg = seg) := by
  have htot : (0 : ℚ) ≤ fs * 1000 + fl * 1000 := by nlinarith
  have hcast : (0 : ℚ) ≤ ((truncToZero (fs * 1000 + fl * 1000) : ℤ) : ℚ) := by
    rw [truncToZero_of_nonneg htot]
    exact_mod_cast Int.floor_nonneg.mpr htot
  refine ⟨?_, ?_, ?_⟩
  · intro hlt
    simp only [fadeStage, hp]
    rw [if_pos hfs, if_pos hlt, pydubSlice_zero_left seg hcast, Int.floor_intCast,
        truncToZero_of_nonneg htot]
  · intro hge
    simp only [fadeStage, hp]
    rw [if_pos hfs, if_neg hge]
  · intro f2 h2
    have hfp : fadeParams f2 = (0, 3) := by
      unfold fadeParams
      rcases hs2 : formFloat f2.bg_fade_start 0 with es | vs <;>
        rcases hl2 : formFloat f2.bg_fade_len 3 with el | vl <;>
          simp_all [Except.toOption]
    exact ⟨hfp, by simp [fadeStage, hfp]⟩

/-- Witness for C4: `bg_fade_start = "5"`, `bg_fade_len = "2"` on an
8000-sample (8 s) track: the track is cut at 7000 ms and faded over
the last 2000 ms; a non-numeric fade length falls back to (0, 3). -/
theorem C4_fade_logic_witness :
    fadeParams { bg_fade_start := some "5", bg_fade_len := some "2" } = (5, 2) ∧
    fadeStage idOps { bg_fade_start := some "5", bg_fade_len := some "2" }
        (List.replicate 8000 (0 : ℤ))
      = idOps.fadeOut (truncToZero ((2 : ℚ) * 1000))
          ((List.replicate 8000 (0 : ℤ)).take
            ((⌊(5 : ℚ) * 1000 + 2 * 1000⌋).toNat)) ∧
    fadeParams { bg_fade_len := some "x" } = (0, 3) := by
  have h := C4_fade_logic idOps
    { bg_fade_start := some "5", bg_fade_len := some "2" }
    (List.replicate 8000 (0 : ℤ)) 5 2 (by decide) (by norm_num) (by norm_num)
  refine ⟨by decide, h.1 (by rw [List.length_replicate]; norm_num), ?_⟩
  exact (h.2.2 { bg_fade_len := some "x" } (Or.inr (by decide))).1

/-- C6 counterexample: the trim input `bg_start = "-0.002"` (−2 ms) on
a 5-sample track yields the last two samples — pydub interprets a
negative position relative to the track's end — not the claimed
`[start, end-of-track)` window, which here would be the whole track. -/
theorem C6_counterexample :
    trimStage { bg_start := some "-0.002" } [1, 2, 3, 4, 5] = [4, 5] ∧
    ([4, 5] : List ℤ) ≠ [1, 2, 3, 4, 5] := by
  constructor
  · have hparse : parseFloat "-0.002" = some (-(1 / 500)) := by
      simp [parseFloat, stripChars, parseDecimal, digitsVal, digitVal,
        List.dropWhile_cons, List.takeWhile_cons]
      norm_num
    have hp : trimParams { bg_start := some "-0.002" } = (-(1 / 500), 0) := by
      simp [trimParams, formFloat, hparse]
    simp only [trimStage, hp]
    rw [if_neg (by norm_num)]
    norm_num [pydubSlice, parsePosition, pySliceIndex, truncToZero, min_def]
    decide
  · decide

/-- C6 amended: for parsed trim values with nonnegative start, when
`end > 0` and `end > start` the track is cut to the window
`[start, end)` (in milliseconds `[start·1000, end·1000)`), otherwise
to `[start, end-of-track)`; non-numeric `bg_start`/`bg_end` fall back
to the full untrimmed track (start 0, no end cut).  A negative numeric
start is instead interpreted by pydub relative to the track's end (see
the counterexample). -/
theorem C6_trim_amended (f : Form) (music : List ℤ) (s e : ℚ)
    (hp : trimParams f = (s, e)) (hs : 0 ≤ s) :
    (0 < e ∧ s < e →
      trimStage f music
        = (music.take ((⌊e * 1000⌋).toNat)).drop ((⌊s * 1000⌋).toNat)) ∧
    (¬ (0 < e ∧ s < e) →
      trimStage f music = music.drop ((⌊s * 1000⌋).toNat)) ∧
    (∀ f2 : Form,
      (formFloat f2.bg_start 0).toOption = none ∨
        (formFloat f2.bg_end 0).toOption = none →
      trimParams f2 = (0, 0) ∧ trimStage f2 music = music) := by
  have hs1000 : (0 : ℚ) ≤ s * 1000 := by nlinarith
  refine ⟨?_, ?_, ?_⟩
  · intro hcond
    have he1000 : (0 : ℚ) ≤ e * 1000 := by nlinarith [hcond.1]
    simp only [trimStage, hp]
    rw [if_pos hcond, pydubSlice_nonneg music hs1000 he1000]
  · intro hcond
    simp only [trimStage, hp]
    rw [if_neg hcond, pydubSlice_drop music hs1000]
  · intro f2 h2
    have hfp : trimParams f2 = (0, 0) := by
      unfold trimParams
      rcases hs2 : formFloat f2.bg_start 0 with es | vs <;>
        rcases he2 : formFloat f2.bg_end 0 with el | vl <;>
          simp_all [Except.toOption]
    refine ⟨hfp, ?_⟩
    have : ¬ ((0 : ℚ) < 0 ∧ (0 : ℚ) < 0) := by norm_num
    simp only [trimStage, hfp]
    rw [if_neg (by norm_num), show (0 : ℚ) * 1000 = 0 by norm_num,
        pydubSlice_full]

/-- Witness for C6 amended: `bg_start = "1"`, `bg_end = "3"` on a
5000-sample (5 s) track keeps the millisecond window `[1000, 3000)`,
and non-numeric trim inputs keep the full track. -/
theorem C6_trim_amended_witness :
    trimStage { bg_start := some "1", bg_end := some "3" }
        (List.replicate 5000 (7 : ℤ))
      = ((List.replicate 5000 (7 : ℤ)).take ((⌊(3 : ℚ) * 1000⌋).toNat)).drop
          ((⌊(1 : ℚ) * 1000⌋).toNat) ∧
    trimParams { bg_start := some "x" } = (0, 0) ∧
    trimStage { bg_start := some "x" } [1, 2, 3, 4, 5] = [1, 2, 3, 4, 5] := by
  have h := C6_trim_amended { bg_start := some "1", bg_end := some "3" }
    (List.replicate 5000 (7 : ℤ)) 1 3 (by decide) (by norm_num)
  have h2 := C6_trim_amended { bg_start := some "x" } [1, 2, 3, 4, 5] 0 0
    (by decide) le_rfl
  exact ⟨h.1 (by norm_num),
    (h2.2.2 { bg_start := some "x" } (Or.inl (by decide))).1,
    (h2.2.2 { bg_start := some "x" } (Or.inl (by decide))).2⟩

/-- C5: a percent ≤ 0 selects the flat −100 dB attenuation (a large
fixed attenuation, no logarithm is evaluated, so no numeric domain
error can occur); a percent > 0 selects the gain
`20·log10(percent/100)` whose argument is positive; `bg_vol = 100`
gives exactly 0 dB; `bg_vol = 50` gives ≈ −6.0206 dB (strictly between
−6.021 and −6.020); and the volume stage applies one fixed per-sample
gain function uniformly to every sample of the track. -/
theorem C5_volume_gain :
    (∀ q : ℚ, q ≤ 0 → volumeGain q = .flatDb (-100)) ∧
    (∀ q : ℚ, 0 < q →
      volumeGain q = .logGain q ∧ (0 : ℝ) < ((q : ℝ)) / 100 ∧
        (volumeGain q).toDb = 20 * Real.logb 10 (((q : ℝ)) / 100)) ∧
    (volumeGain 100).toDb = 0 ∧
    ((volumeGain 50).toDb < -602 / 100 ∧ -6021 / 1000 < (volumeGain 50).toDb) ∧
    (∀ (ops : MixOps) (vol : ℚ) (seg : List ℤ),
      (volumeStage ops vol seg).length = seg.length ∧
      ∀ i : ℕ, (volumeStage ops vol seg)[i]?
        = (seg[i]?).map (ops.gainApply (volumeGain vol))) := by
  have hlogb : ∀ q : ℚ, 0 < q →
      volumeGain q = .logGain q ∧ (0 : ℝ) < ((q : ℝ)) / 100 ∧
        (volumeGain q).toDb = 20 * Real.logb 10 (((q : ℝ)) / 100) := by
    intro q hq
    have hneg : ¬ q ≤ 0 := not_le.mpr hq
    have hsel : volumeGain q = .logGain q := by simp [volumeGain, hneg]
    have hcast : (0 : ℝ) < ((q : ℝ)) := by exact_mod_cast hq
    exact ⟨hsel, by positivity, by rw [hsel]; simp [GainExpr.toDb]⟩
  have h100 : (volumeGain 100).toDb = 0 := by
    have h := (hlogb 100 (by norm_num)).2.2
    rw [h, show (((100 : ℚ) : ℝ)) / 100 = 1 by norm_num, Real.logb_one]
    norm_num
  have h50 : (volumeGain 50).toDb < -602 / 100 ∧ -6021 / 1000 < (volumeGain 50).toDb := by
    have hdb : (volumeGain 50).toDb = -(20 * Real.log 2) / Real.log 10 := by
      rw [(hlogb 50 (by norm_num)).2.2,
          show (((50 : ℚ) : ℝ)) / 100 = (2 : ℝ)⁻¹ by norm_num,
          Real.logb, Real.log_inv]
      ring
    have hL10 := log_ten_bounds
    have hL2a := Real.log_two_gt_d9
    have hL2b := Real.log_two_lt_d9
    have hpos : (0 : ℝ) < Real.log 10 := Real.log_pos (by norm_num)
    constructor
    · rw [hdb, div_lt_iff₀ hpos]
      nlinarith [hL10.2]
    · rw [hdb, lt_div_iff₀ hpos]
      nlinarith [hL10.1]
  refine ⟨?_, hlogb, h100, h50, ?_⟩
  · intro q hq
    simp [volumeGain, hq]
  · intro ops vol seg
    exact ⟨List.length_map seg _, fun i => List.getElem?_map _ seg i⟩

/-- Witness for C5 at concrete volumes and a concrete track. -/
theorem C5_volume_gain_witness :
    volumeGain (-5) = .flatDb (-100) ∧
    volumeGain 50 = .logGain 50 ∧
    (volumeStage idOps 20 [7, -3]).length = ([7, -3] : List ℤ).length ∧
    (volumeStage idOps 20 [7, -3])[0]?
      = ((([7, -3] : List ℤ))[0]?).map (idOps.gainApply (volumeGain 20)) :=
  ⟨C5_volume_gain.1 (-5) (by norm_num),
   (C5_volume_gain.2.1 50 (by norm_num)).1,
   (C5_volume_gain.2.2.2.2 idOps 20 [7, -3]).1,
   (C5_volume_gain.2.2.2.2 idOps 20 [7, -3]).2 0⟩

/-- C1 counterexample: a non-numeric `val_nr` with noise reduction
enabled is parsed outside any local `try/except`; the `ValueError`
escapes to the route's outer handler and the request is aborted with
an error response instead of continuing with a default. -/
theorem C1_counterexample :
    process_audio reduceId applyId idOps
        { enable_nr := some "true", val_nr := some "abc" } [[0]] none
      = .error "could not convert string to float" := by
  decide

/-- C1 amended: only the trim parameters `bg_start`/`bg_end` and the
fade parameters `bg_fade_start`/`bg_fade_len` recover locally from
non-numeric values, falling back to (0, 0) and (0, 3) with processing
continuing; a non-numeric `val_nr`, `val_vintage`, `val_podcast` or
`bg_vol` raises out of the processing stages instead, aborting the
whole request with an error response. -/
theorem C1_amended_recovery :
    (∀ f : Form, (formFloat f.bg_start 0).toOption = none ∨
        (formFloat f.bg_end 0).toOption = none → trimParams f = (0, 0)) ∧
    (∀ f : Form, (formFloat f.bg_fade_start 0).toOption = none ∨
        (formFloat f.bg_fade_len 3).toOption = none → fadeParams f = (0, 3)) ∧
    (∀ (reduce : ℚ → FloatPCM → FloatPCM)
        (apply : List EffectStage → FloatPCM → FloatPCM)
        (ops : MixOps) (f : Form) (data : FloatPCM) (bg : Option (List ℤ))
        (e : String), f.enable_nr = some "true" →
        formFloat f.val_nr 0 = .error e →
        process_audio reduce apply ops f data bg = .error e) ∧
    (∀ (reduce : ℚ → FloatPCM → FloatPCM)
        (apply : List EffectStage → FloatPCM → FloatPCM)
        (ops : MixOps) (f : Form) (data : FloatPCM) (bg : Option (List ℤ))
        (e : String), f.enable_nr ≠ some "true" →
        f.enable_vintage = some "true" →
        formFloat f.val_vintage 0 = .error e →
        process_audio reduce apply ops f data bg = .error e) ∧
    (∀ (reduce : ℚ → FloatPCM → FloatPCM)
        (apply : List EffectStage → FloatPCM → FloatPCM)
        (ops : MixOps) (f : Form) (data : FloatPCM) (bg : Option (List ℤ))
        (e : String), f.enable_nr ≠ some "true" →
        f.enable_vintage ≠ some "true" → f.enable_podcast = some "true" →
        formFloat f.val_podcast 0 = .error e →
        process_audio reduce apply ops f data bg = .error e) ∧
    (∀ (ops : MixOps) (f : Form) (voice music : List ℤ) (e : String),
        trimStage f music ≠ [] → formFloat f.bg_vol 20 = .error e →
        stage2 ops f voice music = .error e) := by
  refine ⟨?_, ?_, ?_, ?_, ?_, ?_⟩
  · intro f h
    unfold trimParams
    rcases hs2 : formFloat f.bg_start 0 with es | vs <;>
      rcases he2 : formFloat f.bg_end 0 with el | vl <;>
        simp_all [Except.toOption]
  · intro f h
    unfold fadeParams
    rcases hs2 : formFloat f.bg_fade_start 0 with es | vs <;>
      rcases he2 : formFloat f.bg_fade_len 3 with el | vl <;>
        simp_all [Except.toOption]
  · intro reduce apply ops f data bg e h1 h2
    simp [process_audio, stage1, noiseStage, h1, h2]
  · intro reduce apply ops f data bg e h0 h1 h2
    simp [process_audio, stage1, noiseStage, h0, buildBoard, h1, h2, Except.map]
  · intro reduce apply ops f data bg e h0 hv h1 h2
    simp [process_audio, stage1, noiseStage, h0, buildBoard, hv, h1, h2, Except.map]
  · intro ops f voice music e hne hvol
    have hlen0 : ¬ (trimStage f music).length = 0 := by
      simpa [List.length_eq_zero] using hne
    simp only [stage2]
    rcases Decidable.em ((trimStage f music).length < voice.length) with h | h
    · simp [loopStep, h, hlen0, hvol]
    · simp [loopStep, h, hvol]

/-- Witness for C1 amended at concrete non-numeric values for each
parameter class. -/
theorem C1_amended_recovery_witness :
    trimParams { bg_start := some "x" } = (0, 0) ∧
    fadeParams { bg_fade_len := some "x" } = (0, 3) ∧
    process_audio reduceId applyId idOps
        { enable_nr := some "true", val_nr := some "nn" } [[0]] none
      = .error "could not convert string to float" ∧
    process_audio reduceId applyId idOps
        { enable_vintage := some "true", val_vintage := some "nn" } [[0]] none
      = .error "could not convert string to float" ∧
    process_audio reduceId applyId idOps
        { enable_podcast := some "true", val_podcast := some "nn" } [[0]] none
      = .error "could not convert string to float" ∧
    stage2 idOps { bg_vol := some "nn" } [0] [5]
      = .error "could not convert string to float" := by
  have htrim : trimStage { bg_vol := some "nn" } [(5 : ℤ)] = [5] := by
    have hp : trimParams { bg_vol := some "nn" } = (0, 0) := by decide
    simp only [trimStage, hp]
    rw [if_neg (by norm_num), show (0 : ℚ) * 1000 = 0 by norm_num, pydubSlice_full]
  refine ⟨C1_amended_recovery.1 _ (Or.inl (by decide)),
    C1_amended_recovery.2.1 _ (Or.inr (by decide)),
    C1_amended_recovery.2.2.1 reduceId applyId idOps _ [[0]] none _
      (by decide) (by decide),
    C1_amended_recovery.2.2.2.1 reduceId applyId idOps _ [[0]] none _
      (by decide) (by decide) (by decide),
    C1_amended_recovery.2.2.2.2.1 reduceId applyId idOps _ [[0]] none _
      (by decide) (by decide) (by decide) (by decide),
    C1_amended_recovery.2.2.2.2.2 idOps _ [0] [5] _
      (by rw [htrim]; decide) (by decide)⟩

theorem clip1_bounds (x : ℚ) : -1 ≤ clip1 x ∧ clip1 x ≤ 1 :=
  ⟨le_max_left _ _, max_le (by norm_num) (min_le_left _ _)⟩

theorem truncToZero_bounds {q : ℚ} {c : ℤ} (hc : 0 ≤ c)
    (h1 : -(c : ℚ) ≤ q) (h2 : q ≤ (c : ℚ)) :
    -c ≤ truncToZero q ∧ truncToZero q ≤ c := by
  unfold truncToZero
  rcases Decidable.em (0 ≤ q) with h | h
  · rw [if_pos h]
    constructor
    · have : (0 : ℤ) ≤ ⌊q⌋ := Int.floor_nonneg.mpr h
      omega
    · have := Int.floor_le_floor h2
      rwa [Int.floor_intCast] at this
  · rw [if_neg h]
    constructor
    · have h1b : (((-c : ℤ) : ℚ)) ≤ q := by push_cast; linarith
      have := Int.ceil_le_ceil h1b
      rwa [Int.ceil_intCast] at this
    · have : ⌈q⌉ ≤ ⌈(0 : ℚ)⌉ := Int.ceil_le_ceil (le_of_not_le h)
      simp at this
      omega

theorem encodeSample_bounds (x : ℚ) :
    -32767 ≤ encodeSample x ∧ encodeSample x ≤ 32767 := by
  have hc := clip1_bounds x
  unfold encodeSample
  refine truncToZero_bounds (by norm_num) ?_ ?_
  · push_cast
    nlinarith [hc.1]
  · push_cast
    nlinarith [hc.2]

theorem mem_interleave2 {z : ℤ} {l r : List ℤ} (h : z ∈ interleave2 l r) :
    z ∈ l ∨ z ∈ r := by
  unfold interleave2 at h
  obtain ⟨p, hp, hzp⟩ := List.mem_flatMap.mp h
  obtain ⟨a, b⟩ := p
  have hab := List.of_mem_zip hp
  simp only [List.mem_cons, List.not_mem_nil, or_false] at hzp
  rcases hzp with rfl | rfl
  · exact Or.inl hab.1
  · exact Or.inr hab.2

theorem mem_convert_numpy (data : FloatPCM) (z : ℤ)
    (hz : z ∈ convert_numpy_to_audio data) : ∃ x : ℚ, z = encodeSample x := by
  have hch : ∀ ch : List ℚ, z ∈ encodeChannel ch → ∃ x : ℚ, z = encodeSample x := by
    intro ch h
    obtain ⟨x, _, rfl⟩ := List.mem_map.mp h
    exact ⟨x, rfl⟩
  match data with
  | [] => simp [convert_numpy_to_audio] at hz
  | [c1] =>
    simp only [convert_numpy_to_audio, List.map, List.flatten, List.append_nil] at hz
    exact hch c1 hz
  | [c1, c2] =>
    simp only [convert_numpy_to_audio, List.map] at hz
    rcases mem_interleave2 hz with h | h
    · exact hch c1 h
    · exact hch c2 h
  | c1 :: c2 :: c3 :: cs =>
    simp only [convert_numpy_to_audio, List.map] at hz
    obtain ⟨ch, hmem, hzch⟩ := List.mem_flatten.mp hz
    simp only [List.mem_cons] at hmem
    rcases hmem with rfl | rfl | rfl | hmem
    · exact hch c1 hzch
    · exact hch c2 hzch
    · exact hch c3 hzch
    · obtain ⟨c, _, rfl⟩ := List.mem_map.mp hmem
      exact hch c hzch

/-- C8 counterexample: an end-to-end run in which the voice sample
encodes (after the clamp) to 30000 and a background sample 30000 is
mixed at 0 dB; the overlay, downstream of the encode clamp, saturates
the true sum 60000 to 32767 — a stage after the encode-time clamp
clips the signal, so that clamp is not final. -/
theorem C8_counterexample :
    process_audio reduceId applyId idOps { bg_vol := some "100" }
        [[30000 / 32767]] (some [30000])
      = .file [32767] ∧
    convert_numpy_to_audio [[30000 / 32767]] = [30000] ∧
    (30000 : ℤ) + 30000 ≠ 32767 := by
  have hs : encodeSample (30000 / 32767) = 30000 := by
    have hc : clip1 (30000 / 32767) = 30000 / 32767 := by
      unfold clip1
      rw [min_eq_right (by norm_num), max_eq_right (by norm_num)]
    unfold encodeSample
    rw [hc, truncToZero_of_nonneg (by norm_num),
        show (30000 / 32767 : ℚ) * 32767 = ((30000 : ℤ) : ℚ) by norm_num,
        Int.floor_intCast]
  have henc : convert_numpy_to_audio [[30000 / 32767]] = [30000] := by
    simp [convert_numpy_to_audio, encodeChannel, hs]
  have h1 : stage1 reduceId applyId { bg_vol := some "100" } [[30000 / 32767]]
      = .ok [30000] := by
    simp [stage1, noiseStage, buildBoard, applyBoardStage, henc]
  have htrim : trimStage { bg_vol := some "100" } [(30000 : ℤ)] = [30000] := by
    have hp : trimParams { bg_vol := some "100" } = (0, 0) := by decide
    simp only [trimStage, hp]
    rw [if_neg (by norm_num), show (0 : ℚ) * 1000 = 0 by norm_num, pydubSlice_full]
  have h2 : stage2 idOps { bg_vol := some "100" } [(30000 : ℤ)] [30000]
      = .ok [32767] := by
    have hvol : formFloat (some "100") 20 = .ok 100 := by decide
    have hfade : fadeParams { bg_vol := some "100" } = (0, 3) := by decide
    have hloop : loopStep 1 [(30000 : ℤ)] = .ok [30000] := by
      simp [loopStep]
    have hslice : pydubSlice [(30000 : ℤ)] 0 (1 : ℚ) = [30000] := by
      have h := pydubSlice_take [(30000 : ℤ)] 1
      simpa using h
    have hvolstage : volumeStage idOps 100 [(30000 : ℤ)] = [30000] := by
      simp [volumeStage, idOps]
    have hfadestage : fadeStage idOps { bg_vol := some "100" } [(30000 : ℤ)]
        = [30000] := by
      simp only [fadeStage, hfade]
      norm_num
    simp [stage2, htrim, hloop, hslice, hvol, hvolstage, hfadestage,
      overlay, audioopAdd]
  refine ⟨?_, henc, by decide⟩
  simp [process_audio, h1, h2]

/-- C8 amended: `convert_numpy_to_audio` clips every float sample to
exactly [−1, 1] before scaling by 32767 and truncating toward zero, so
every emitted value lies in [−32767, 32767] ⊂ int16 and no overflow or
wraparound can occur, and two-channel data is re-interleaved
frame-major/channel-minor; but the encode clamp is the final clamp
only when no background is mixed — the overlay stage that runs after
it saturates sample sums at the int16 bounds, an additional clip
downstream of the encode clamp. -/
theorem C8_encode_amended :
    (∀ x : ℚ, -1 ≤ clip1 x ∧ clip1 x ≤ 1 ∧
      encodeSample x = truncToZero (clip1 x * 32767)) ∧
    (∀ (data : FloatPCM) (z : ℤ), z ∈ convert_numpy_to_audio data →
      -32767 ≤ z ∧ z ≤ 32767) ∧
    (∀ (l r : List ℚ) (i : ℕ), i < l.length → i < r.length →
      (convert_numpy_to_audio [l, r])[2 * i]? = (l.map encodeSample)[i]? ∧
      (convert_numpy_to_audio [l, r])[2 * i + 1]? = (r.map encodeSample)[i]?) ∧
    (∀ a b : ℤ, 32767 < a + b → audioopAdd a b = 32767) ∧
    (∀ a b : ℤ, a + b < -32768 → audioopAdd a b = -32768) := by
  refine ⟨?_, ?_, ?_, ?_, ?_⟩
  · intro x
    exact ⟨(clip1_bounds x).1, (clip1_bounds x).2, rfl⟩
  · intro data z hz
    obtain ⟨x, rfl⟩ := mem_convert_numpy data z hz
    exact encodeSample_bounds x
  · intro l r i h1 h2
    have hconv : convert_numpy_to_audio [l, r]
        = interleave2 (encodeChannel l) (encodeChannel r) := rfl
    have h1m : i < (encodeChannel l).length := by
      simpa [encodeChannel] using h1
    have h2m : i < (encodeChannel r).length := by
      simpa [encodeChannel] using h2
    rw [hconv]
    exact interleave2_getElem (encodeChannel l) (encodeChannel r) i h1m h2m
  · intro a b h
    unfold audioopAdd
    rw [min_eq_left (by omega), max_eq_right (by omega)]
  · intro a b h
    unfold audioopAdd
    rw [min_eq_right (by omega), max_eq_left (by omega)]

/-- Witness for C8 amended at concrete samples and channels. -/
theorem C8_encode_amended_witness :
    (-1 ≤ clip1 2 ∧ clip1 2 ≤ 1 ∧ encodeSample 2 = truncToZero (clip1 2 * 32767)) ∧
    (-32767 ≤ (32767 : ℤ) ∧ (32767 : ℤ) ≤ 32767) ∧
    ((convert_numpy_to_audio [[1 / 2], [1 / 4]])[2 * 0]?
        = (([1 / 2] : List ℚ).map encodeSample)[0]? ∧
     (convert_numpy_to_audio [[1 / 2], [1 / 4]])[2 * 0 + 1]?
        = (([1 / 4] : List ℚ).map encodeSample)[0]?) ∧
    audioopAdd 20000 20000 = 32767 ∧
    audioopAdd (-20000) (-20000) = -32768 := by
  refine ⟨C8_encode_amended.1 2, ?_,
    C8_encode_amended.2.2.1 [1 / 2] [1 / 4] 0 (by decide) (by decide),
    C8_encode_amended.2.2.2.1 20000 20000 (by decide),
    C8_encode_amended.2.2.2.2 (-20000) (-20000) (by decide)⟩
  refine C8_encode_amended.2.1 [[2, -2]] 32767 ?_
  have h2 : encodeSample 2 = 32767 := by
    unfold encodeSample clip1
    rw [min_eq_left (by norm_num), max_eq_right (by norm_num),
        truncToZero_of_nonneg (by norm_num),
        show (1 : ℚ) * 32767 = ((32767 : ℤ) : ℚ) by norm_num, Int.floor_intCast]
  have : convert_numpy_to_audio [[2, -2]]
      = [encodeSample 2, encodeSample (-2)] := by
    simp [convert_numpy_to_audio, encodeChannel]
  rw [this, h2]
  simp

/-- C9 counterexample: overlaying two samples of value 32000 yields the
saturated value 32767, not the additive sum 64000 — the overlay stage
does limit values beyond full scale (pydub's `audioop.add` clips at
the int16 bounds), contradicting the claim that this stage applies no
limiting. -/
theorem C9_counterexample :
    overlay [32000] [32000] = [32767] ∧
    (32000 : ℤ) + 32000 = 64000 ∧ (64000 : ℤ) ≠ 32767 := by
  decide

/-- C9 amended: the overlay mixes the music into the voice
sample-by-sample starting at sample 0 of both, the output length is
always the voice buffer's length and the part of the voice past the
music's end is untouched, but each overlapped sample pair is combined
with `audioop.add`, which saturates sums at the int16 bounds −32768
and 32767 — the overlay does limit values beyond full scale, before
the encode clamp policy ever applies. -/
theorem C9_overlay_amended (voice music : List ℤ) :
    (overlay voice music).length = voice.length ∧
    (∀ i : ℕ, ∀ h1 : i < voice.length, ∀ h2 : i < music.length,
      (overlay voice music)[i]?
        = some (audioopAdd (voice.get ⟨i, h1⟩) (music.get ⟨i, h2⟩))) ∧
    (∀ i : ℕ, music.length ≤ i → (overlay voice music)[i]? = voice[i]?) ∧
    (∀ a b : ℤ, audioopAdd a b = max (-32768) (min 32767 (a + b))) := by
  refine ⟨?_, ?_, ?_, fun a b => rfl⟩
  · simp only [overlay, List.length_append, List.length_zipWith, List.length_drop]
    omega
  · intro i h1 h2
    have hz : i < (List.zipWith audioopAdd voice music).length := by
      rw [List.length_zipWith]
      omega
    rw [overlay, List.getElem?_append_left hz, List.getElem?_eq_getElem hz,
        List.getElem_zipWith]
    simp
  · intro i hi
    have hz : (List.zipWith audioopAdd voice music).length ≤ i := by
      rw [List.length_zipWith]
      omega
    rw [overlay, List.getElem?_append_right hz, List.length_zipWith]
    rcases le_total music.length voice.length with h | h
    · rw [min_eq_right h, List.getElem?_drop]
      congr 1
      omega
    · rw [min_eq_left h]
      have hd : (voice.drop music.length) = [] :=
        List.drop_of_length_le h
      rw [hd]
      have hv : voice[i]? = none := List.getElem?_eq_none (h.trans hi)
      rw [hv]
      exact List.getElem?_eq_none (by simp)

/-- Witness for C9 amended at a concrete voice and music buffer. -/
theorem C9_overlay_amended_witness :
    (overlay [100, 200, 300] [40, 50]).length = ([100, 200, 300] : List ℤ).length ∧
    (overlay [100, 200, 300] [40, 50])[0]?
      = some (audioopAdd (([100, 200, 300] : List ℤ).get ⟨0, by decide⟩)
          (([40, 50] : List ℤ).get ⟨0, by decide⟩)) ∧
    (overlay [100, 200, 300] [40, 50])[2]? = ([100, 200, 300] : List ℤ)[2]? ∧
    audioopAdd 7 8 = max (-32768) (min 32767 ((7 : ℤ) + 8)) := by
  have h := C9_overlay_amended [100, 200, 300] [40, 50]
  exact ⟨h.1, h.2.1 0 (by decide) (by decide), h.2.2.1 2 (by decide),
    h.2.2.2 7 8⟩

/-- C10: when the trimmed background selection is empty (for example a
numeric trim start at or past the track's end) while the voice buffer
is non-empty, the loop-count computation divides by the zero music
length: stage 2 raises the division-by-zero error, and the whole
request is aborted with an error response instead of recovering or
skipping the background. -/
theorem C10_division_by_zero (ops : MixOps) (f : Form) (voice music : List ℤ)
    (h1 : trimStage f music = []) (h2 : voice ≠ []) :
    stage2 ops f voice music = .error "division by zero" ∧
    ∀ (reduce : ℚ → FloatPCM → FloatPCM)
      (apply : List EffectStage → FloatPCM → FloatPCM) (data : FloatPCM),
      stage1 reduce apply f data = .ok voice →
      process_audio reduce apply ops f data (some music)
        = .error "division by zero" := by
  have hlen : 0 < voice.length := List.length_pos.mpr h2
  have hs : stage2 ops f voice music = .error "division by zero" := by
    simp [stage2, h1, loopStep, hlen]
  refine ⟨hs, ?_⟩
  intro reduce apply data hok
  simp [process_audio, hok, hs]

/-- Witness for C10: `bg_start = "5"` on a 3-sample (3 ms) track under
a 1-sample voice buffer aborts with the division-by-zero error. -/
theorem C10_division_by_zero_witness :
    stage2 idOps { bg_start := some "5" } [0] [1, 2, 3]
      = .error "division by zero" ∧
    process_audio reduceId applyId idOps { bg_start := some "5" } [[0]]
        (some [1, 2, 3]) = .error "division by zero" := by
  have htrim : trimStage { bg_start := some "5" } [(1 : ℤ), 2, 3] = [] := by
    have hp : trimParams { bg_start := some "5" } = (5, 0) := by decide
    simp only [trimStage, hp]
    rw [if_neg (by norm_num)]
    norm_num [pydubSlice, parsePosition, pySliceIndex, truncToZero, min_def]
  have henc : convert_numpy_to_audio [[(0 : ℚ)]] = [0] := by
    have h0 : encodeSample 0 = 0 := by
      unfold encodeSample clip1
      rw [min_eq_right (by norm_num), max_eq_right (by norm_num),
          truncToZero_of_nonneg (by norm_num)]
      norm_num
    simp [convert_numpy_to_audio, encodeChannel, h0]
  have hstage1 : stage1 reduceId applyId { bg_start := some "5" } [[0]]
      = .ok [0] := by
    simp [stage1, noiseStage, buildBoard, applyBoardStage, henc]
  have h := C10_division_by_zero idOps { bg_start := some "5" } [0] [1, 2, 3]
    htrim (by decide)
  exact ⟨h.1, h.2 reduceId applyId [[0]] hstage1⟩

end AudioApp
